import Mathlib

/-!
Verification development for the elevenlabs-discord-agent repository.

The TypeScript sources are shallowly embedded: JS `Buffer`s of bytes become
`List Nat` (each entry `< 256`), the uninitialized bytes of `Buffer.allocUnsafe`
become `Option Nat` entries (`none` = never written), and JS exceptions
(`RangeError` thrown by out-of-bounds `readInt16LE`/`writeInt16LE`) become
`Except JsError`.  Stateful classes become explicit state records with step
functions, and externally visible effects (messages sent on the socket, calls
into the voice library) are recorded in logs carried by the state.
-/

namespace ElevenDiscord

/-- Failure raised by Node buffer accessors (`ERR_OUT_OF_RANGE` /
`ERR_BUFFER_OUT_OF_BOUNDS`, both `RangeError`s). -/
inductive JsError where
  | rangeError
  deriving DecidableEq, Repr

/-- Interpretation of two bytes as a signed 16-bit little-endian value, as
`Buffer.prototype.readInt16LE` computes it (`first + last * 2^8`, then
sign-extended). -/
def readInt16 (b0 b1 : Nat) : Int :=
  let v := b0 + b1 * 256
  if v < 32768 then (v : Int) else (v : Int) - 65536

/-- Low 16 bits of a signed value, as stored by `writeInt16LE` (two's
complement). -/
def int16ToUint16 (s : Int) : Nat := (s % 65536).toNat

/-- Model of `Buffer.prototype.readInt16LE`: reading two bytes at `off` from a
buffer of length `buf.length`; offsets past `length - 2` throw a range error. -/
def jsReadInt16LE (buf : List Nat) (off : Nat) : Except JsError Int :=
  if off + 2 ≤ buf.length then
    .ok (readInt16 (buf.getD off 0) (buf.getD (off + 1) 0))
  else
    .error .rangeError

/-- Model of `Buffer.prototype.writeInt16LE` on a possibly-uninitialized
buffer: validates the value range and the offset, then stores the two bytes of
the two's-complement representation. -/
def jsWriteInt16LE (buf : List (Option Nat)) (off : Nat) (s : Int) :
    Except JsError (List (Option Nat)) :=
  if s < -32768 ∨ 32767 < s then .error .rangeError
  else if off + 2 ≤ buf.length then
    let v := int16ToUint16 s
    .ok ((buf.set off (some (v % 256))).set (off + 1) (some (v / 256)))
  else
    .error .rangeError

/-- Loop body of `base64MonoPcmToStereo` (src/src/utils/audioUtils.ts): for
`i` running while `i < samples` where `samples` is the JS (possibly fractional)
value `mono.byteLength / 2` — the guard `i < byteLength / 2` is rendered as
`2 * i < byteLength`.  Each step reads the `i`-th mono 16-bit sample and writes
it to offsets `4*i` and `4*i + 2` of the stereo buffer. -/
def upmixLoop (mono : List Nat) (stereo : List (Option Nat)) (i : Nat) :
    Except JsError (List (Option Nat)) :=
  if _h : 2 * i < mono.length then
    match jsReadInt16LE mono (2 * i) with
    | .error e => .error e
    | .ok s =>
      match jsWriteInt16LE stereo (4 * i) s with
      | .error e => .error e
      | .ok st1 =>
        match jsWriteInt16LE st1 (4 * i + 2) s with
        | .error e => .error e
        | .ok st2 => upmixLoop mono st2 (i + 1)
  else
    .ok stereo
termination_by mono.length - i
decreasing_by omega

/-- Model of `base64MonoPcmToStereo` (src/src/utils/audioUtils.ts), taking the
already-base64-decoded byte content `mono` as input.  Zero-length input returns
an empty buffer; otherwise a buffer of `samples * 4 = 2 * byteLength` bytes is
allocated uninitialized (`Buffer.allocUnsafe`) and filled by the loop. -/
def base64MonoPcmToStereo (mono : List Nat) : Except JsError (List (Option Nat)) :=
  if mono.length = 0 then .ok []
  else upmixLoop mono (List.replicate (2 * mono.length) none) 0

/-! Helper lemmas about `List.set` / `List.getD`. -/

lemma getD_set_ne {α : Type} (l : List α) (d : α) {i j : Nat} (v : α) (hij : i ≠ j) :
    (l.set i v).getD j d = l.getD j d := by
  simp [List.getD_eq_getElem?_getD, List.getElem?_set, hij]

lemma getD_set_self {α : Type} (l : List α) (d : α) {i : Nat} (v : α) (hi : i < l.length) :
    (l.set i v).getD i d = v := by
  simp [List.getD_eq_getElem?_getD, List.getElem?_set, hi]

lemma readInt16_range (b0 b1 : Nat) (h0 : b0 < 256) (h1 : b1 < 256) :
    -32768 ≤ readInt16 b0 b1 ∧ readInt16 b0 b1 ≤ 32767 := by
  simp only [readInt16]
  split <;> omega

lemma int16_uint16 (b0 b1 : Nat) (h0 : b0 < 256) (h1 : b1 < 256) :
    int16ToUint16 (readInt16 b0 b1) = b0 + b1 * 256 := by
  simp only [int16ToUint16, readInt16]
  split <;> omega

/-- Writing back the 16-bit value read from two bytes reproduces the bytes:
the low stored byte is `b0` and the high stored byte is `b1`. -/
lemma int16_roundtrip (b0 b1 : Nat) (h0 : b0 < 256) (h1 : b1 < 256) :
    int16ToUint16 (readInt16 b0 b1) % 256 = b0 ∧
    int16ToUint16 (readInt16 b0 b1) / 256 = b1 := by
  rw [int16_uint16 b0 b1 h0 h1]
  constructor <;> omega

/-- Invariant of the upmix loop on an even-length mono buffer: the loop
completes, preserves already-written prefixes, and fills every remaining
4-byte stereo block with the corresponding mono sample bytes. -/
lemma upmixLoop_even_spec (mono : List Nat) (n : Nat) (hlen : mono.length = 2 * n)
    (hb : ∀ b ∈ mono, b < 256) :
    ∀ k i stereo, i + k = n → stereo.length = 4 * n →
      ∃ out, upmixLoop mono stereo i = .ok out ∧ out.length = 4 * n ∧
        (∀ m, m < 4 * i → out.getD m none = stereo.getD m none) ∧
        (∀ j, i ≤ j → j < n →
          out.getD (4 * j) none = some (mono.getD (2 * j) 0) ∧
          out.getD (4 * j + 1) none = some (mono.getD (2 * j + 1) 0) ∧
          out.getD (4 * j + 2) none = some (mono.getD (2 * j) 0) ∧
          out.getD (4 * j + 3) none = some (mono.getD (2 * j + 1) 0)) := by
  intro k
  induction k with
  | zero =>
    intro i stereo hik hsl
    refine ⟨stereo, ?_, hsl, fun m _ => rfl, fun j hij hjn => absurd hjn (by omega)⟩
    rw [upmixLoop, dif_neg (by omega)]
  | succ k ih =>
    intro i stereo hik hsl
    have h2i : 2 * i < mono.length := by omega
    have h2i1 : 2 * i + 1 < mono.length := by omega
    have hb0 : mono.getD (2 * i) 0 < 256 := by
      rw [List.getD_eq_getElem _ _ h2i]
      exact hb _ (List.getElem_mem h2i)
    have hb1 : mono.getD (2 * i + 1) 0 < 256 := by
      rw [List.getD_eq_getElem _ _ h2i1]
      exact hb _ (List.getElem_mem h2i1)
    have hrange := readInt16_range _ _ hb0 hb1
    have hround := int16_roundtrip _ _ hb0 hb1
    set s := readInt16 (mono.getD (2 * i) 0) (mono.getD (2 * i + 1) 0) with hs
    set v := int16ToUint16 s with hv
    have hread : jsReadInt16LE mono (2 * i) = .ok s := by
      simp only [jsReadInt16LE, if_pos (show 2 * i + 2 ≤ mono.length by omega)]
    set st1 : List (Option Nat) :=
      (stereo.set (4 * i) (some (v % 256))).set (4 * i + 1) (some (v / 256)) with hst1
    have hst1len : st1.length = 4 * n := by simp [hst1, hsl]
    have hw1 : jsWriteInt16LE stereo (4 * i) s = .ok st1 := by
      simp only [jsWriteInt16LE, if_neg (show ¬(s < -32768 ∨ 32767 < s) by omega),
        if_pos (show 4 * i + 2 ≤ stereo.length by omega)]
    set st2 : List (Option Nat) :=
      (st1.set (4 * i + 2) (some (v % 256))).set (4 * i + 3) (some (v / 256)) with hst2
    have hst2len : st2.length = 4 * n := by simp [hst2, hst1, hsl]
    have hw2 : jsWriteInt16LE st1 (4 * i + 2) s = .ok st2 := by
      simp only [jsWriteInt16LE, if_neg (show ¬(s < -32768 ∨ 32767 < s) by omega),
        if_pos (show 4 * i + 2 + 2 ≤ st1.length by omega)]
    obtain ⟨out, hout, houtlen, hpres, hblocks⟩ := ih (i + 1) st2 (by omega) hst2len
    have hst2_at : ∀ m, m < 4 * i → st2.getD m none = stereo.getD m none := by
      intro m hm
      rw [hst2, getD_set_ne _ _ _ (by omega), getD_set_ne _ _ _ (by omega),
        hst1, getD_set_ne _ _ _ (by omega), getD_set_ne _ _ _ (by omega)]
    refine ⟨out, ?_, houtlen, ?_, ?_⟩
    · rw [upmixLoop, dif_pos h2i]
      simp only [hread, hw1, hw2]
      exact hout
    · intro m hm
      rw [hpres m (by omega), hst2_at m hm]
    · intro j hij hjn
      rcases Nat.lt_or_ge i j with hlt | hge
      · exact hblocks j hlt hjn
      · have hji : j = i := by omega
        subst hji
        have e0 : out.getD (4 * j) none = st2.getD (4 * j) none := hpres _ (by omega)
        have e1 : out.getD (4 * j + 1) none = st2.getD (4 * j + 1) none := hpres _ (by omega)
        have e2 : out.getD (4 * j + 2) none = st2.getD (4 * j + 2) none := hpres _ (by omega)
        have e3 : out.getD (4 * j + 3) none = st2.getD (4 * j + 3) none := hpres _ (by omega)
        have hL0len : (stereo.set (4 * j) (some (v % 256))).length = 4 * n := by
          rw [List.length_set, hsl]
        have hv0 : st2.getD (4 * j) none = some (v % 256) := by
          rw [hst2, getD_set_ne _ _ _ (by omega : 4 * j + 3 ≠ 4 * j),
            getD_set_ne _ _ _ (by omega : 4 * j + 2 ≠ 4 * j),
            hst1, getD_set_ne _ _ _ (by omega : 4 * j + 1 ≠ 4 * j),
            getD_set_self _ _ _ (show 4 * j < stereo.length by omega)]
        have hv1 : st2.getD (4 * j + 1) none = some (v / 256) := by
          rw [hst2, getD_set_ne _ _ _ (by omega : 4 * j + 3 ≠ 4 * j + 1),
            getD_set_ne _ _ _ (by omega : 4 * j + 2 ≠ 4 * j + 1),
            hst1, getD_set_self _ _ _
              (show 4 * j + 1 < (stereo.set (4 * j) (some (v % 256))).length by omega)]
        have hv2 : st2.getD (4 * j + 2) none = some (v % 256) := by
          rw [hst2, getD_set_ne _ _ _ (by omega : 4 * j + 3 ≠ 4 * j + 2),
            getD_set_self _ _ _ (show 4 * j + 2 < st1.length by omega)]
        have hv3 : st2.getD (4 * j + 3) none = some (v / 256) := by
          rw [hst2, getD_set_self _ _ _
            (show 4 * j + 3 < (st1.set (4 * j + 2) (some (v % 256))).length by
              rw [List.length_set]; omega)]
        refine ⟨?_, ?_, ?_, ?_⟩
        · rw [e0, hv0, hround.1]
        · rw [e1, hv1, hround.2]
        · rw [e2, hv2, hround.1]
        · rw [e3, hv3, hround.2]

/-- Invariant of the upmix loop on an odd-length mono buffer with in-range
bytes: every full sample is processed and the read of the final (truncated)
sample throws a range error. -/
lemma upmixLoop_odd_error (mono : List Nat) (n : Nat) (hlen : mono.length = 2 * n + 1)
    (hb : ∀ b ∈ mono, b < 256) :
    ∀ k i stereo, i + k = n → stereo.length = 2 * mono.length →
      upmixLoop mono stereo i = .error .rangeError := by
  intro k
  induction k with
  | zero =>
    intro i stereo hik hsl
    rw [upmixLoop, dif_pos (by omega)]
    have hread : jsReadInt16LE mono (2 * i) = .error .rangeError := by
      simp only [jsReadInt16LE, if_neg (show ¬(2 * i + 2 ≤ mono.length) by omega)]
    simp only [hread]
  | succ k ih =>
    intro i stereo hik hsl
    have h2i : 2 * i < mono.length := by omega
    have h2i1 : 2 * i + 1 < mono.length := by omega
    have hb0 : mono.getD (2 * i) 0 < 256 := by
      rw [List.getD_eq_getElem _ _ h2i]
      exact hb _ (List.getElem_mem h2i)
    have hb1 : mono.getD (2 * i + 1) 0 < 256 := by
      rw [List.getD_eq_getElem _ _ h2i1]
      exact hb _ (List.getElem_mem h2i1)
    have hrange := readInt16_range _ _ hb0 hb1
    set s := readInt16 (mono.getD (2 * i) 0) (mono.getD (2 * i + 1) 0) with hs
    set v := int16ToUint16 s with hv
    have hread : jsReadInt16LE mono (2 * i) = .ok s := by
      simp only [jsReadInt16LE, if_pos (show 2 * i + 2 ≤ mono.length by omega)]
    set st1 : List (Option Nat) :=
      (stereo.set (4 * i) (some (v % 256))).set (4 * i + 1) (some (v / 256)) with hst1
    have hst1len : st1.length = 2 * mono.length := by simp [hst1, hsl]
    have hw1 : jsWriteInt16LE stereo (4 * i) s = .ok st1 := by
      simp only [jsWriteInt16LE, if_neg (show ¬(s < -32768 ∨ 32767 < s) by omega),
        if_pos (show 4 * i + 2 ≤ stereo.length by omega)]
    set st2 : List (Option Nat) :=
      (st1.set (4 * i + 2) (some (v % 256))).set (4 * i + 3) (some (v / 256)) with hst2
    have hst2len : st2.length = 2 * mono.length := by simp [hst2, hst1, hsl]
    have hw2 : jsWriteInt16LE st1 (4 * i + 2) s = .ok st2 := by
      simp only [jsWriteInt16LE, if_neg (show ¬(s < -32768 ∨ 32767 < s) by omega),
        if_pos (show 4 * i + 2 + 2 ≤ st1.length by omega)]
    rw [upmixLoop, dif_pos h2i]
    simp only [hread, hw1, hw2]
    exact ih (i + 1) st2 (by omega) hst2len

/-- C5: for an even-length decoded input of `n` mono 16-bit LE samples, the
upmix returns a buffer of exactly `4 * n` bytes in which, for every `i < n`,
the byte pairs at `[4i, 4i+1]` and `[4i+2, 4i+3]` both hold the bytes of the
`i`-th input sample (so every output byte is initialized); in particular
zero-length input (`n = 0`) returns a zero-length output. -/
theorem upmix_even_length_spec (mono : List Nat) (n : Nat) (hlen : mono.length = 2 * n)
    (hb : ∀ b ∈ mono, b < 256) :
    ∃ out, base64MonoPcmToStereo mono = .ok out ∧ out.length = 4 * n ∧
      ∀ i, i < n →
        out.getD (4 * i) none = some (mono.getD (2 * i) 0) ∧
        out.getD (4 * i + 1) none = some (mono.getD (2 * i + 1) 0) ∧
        out.getD (4 * i + 2) none = some (mono.getD (2 * i) 0) ∧
        out.getD (4 * i + 3) none = some (mono.getD (2 * i + 1) 0) := by
  unfold base64MonoPcmToStereo
  by_cases h0 : mono.length = 0
  · rw [if_pos h0]
    exact ⟨[], rfl, by simpa using (by omega : 0 = 4 * n),
      fun i hi => absurd hi (by omega)⟩
  · rw [if_neg h0]
    obtain ⟨out, hout, hlen_out, _, hblocks⟩ :=
      upmixLoop_even_spec mono n hlen hb n 0 (List.replicate (2 * mono.length) none)
        (by omega) (by simp [hlen]; ring)
    exact ⟨out, hout, hlen_out, fun i hi => hblocks i (Nat.zero_le i) hi⟩

/-- Witness for C5 at the concrete input `[1, 2]` (one sample, `n = 1`). -/
theorem upmix_even_length_spec_witness :
    ∃ out, base64MonoPcmToStereo [1, 2] = .ok out ∧ out.length = 4 * 1 ∧
      ∀ i, i < 1 →
        out.getD (4 * i) none = some ([1, 2].getD (2 * i) 0) ∧
        out.getD (4 * i + 1) none = some ([1, 2].getD (2 * i + 1) 0) ∧
        out.getD (4 * i + 2) none = some ([1, 2].getD (2 * i) 0) ∧
        out.getD (4 * i + 3) none = some ([1, 2].getD (2 * i + 1) 0) :=
  upmix_even_length_spec [1, 2] 1 (by decide) (by decide)

/-- Counterexample for C9: the claim asserts that for decoded length exactly 1
the function returns a 2-byte uninitialized buffer rather than throwing, but
the loop still runs its first iteration (`0 < samples = 0.5`) and
`readInt16LE(0)` on a 1-byte buffer is out of bounds, so the function throws a
range error instead of returning. -/
theorem upmix_length_one_throws :
    base64MonoPcmToStereo [7] = .error .rangeError ∧
    ∀ out, base64MonoPcmToStereo [7] ≠ .ok out := by
  have h : base64MonoPcmToStereo [7] = .error .rangeError := by
    rw [base64MonoPcmToStereo, if_neg (by decide), upmixLoop, dif_pos (by decide)]
    simp [jsReadInt16LE]
  exact ⟨h, fun out hout => by rw [h] at hout; exact Except.noConfusion hout⟩

/-- C9 (amended): for every decoded input of odd byte length — including
length exactly 1 — the function throws a range error while reading a 16-bit
sample past the end of the buffer, and never returns a buffer (the odd
trailing byte is never silently truncated). -/
theorem upmix_odd_length_throws (mono : List Nat) (n : Nat)
    (hlen : mono.length = 2 * n + 1) (hb : ∀ b ∈ mono, b < 256) :
    base64MonoPcmToStereo mono = .error .rangeError := by
  unfold base64MonoPcmToStereo
  rw [if_neg (by omega)]
  exact upmixLoop_odd_error mono n hlen hb n 0 _ (by omega) (by simp)

/-- Witness for the amended C9 at the concrete odd-length input `[1, 2, 3]`. -/
theorem upmix_odd_length_throws_witness :
    base64MonoPcmToStereo [1, 2, 3] = .error .rangeError :=
  upmix_odd_length_throws [1, 2, 3] 1 (by decide) (by decide)

/-!
Model of the `Agent` class (src/src/api/elevenlabs/conversationalClient.ts):
WebSocket ready states, outbound messages, and `appendInputAudio`.
-/

/-- WebSocket ready states (`ws` constants `CONNECTING/OPEN/CLOSING/CLOSED`). -/
inductive ReadyState where
  | wsConnecting
  | wsOpen
  | wsClosing
  | wsClosed
  deriving DecidableEq, Repr

/-- Messages the Agent serializes onto the socket. -/
inductive OutMessage where
  | userAudioChunk (base64Audio : String)
  | clientToolResult (toolCallId : String) (result : String) (isError : Bool)
  deriving DecidableEq, Repr

/-- Standard base64 alphabet, indexed 0–63. -/
def base64Char (n : Nat) : Char :=
  ("ABCDEFGHIJKLMNOPQRSTUVWXYZabcdefghijklmnopqrstuvwxyz0123456789+/".toList).getD n
    (Char.ofNat 65)

/-- Base64 encoding of a byte list (model of `buffer.toString(\x27base64\x27)`),
three bytes per four output characters with `=` padding. -/
def base64EncodeChunks : List Nat → List Char
  | [] => []
  | [b0] => [base64Char (b0 / 4), base64Char (b0 % 4 * 16), '=', '=']
  | [b0, b1] => [base64Char (b0 / 4), base64Char (b0 % 4 * 16 + b1 / 16),
      base64Char (b1 % 16 * 4), '=']
  | b0 :: b1 :: b2 :: rest =>
      base64Char (b0 / 4) :: base64Char (b0 % 4 * 16 + b1 / 16) ::
        base64Char (b1 % 16 * 4 + b2 / 64) :: base64Char (b2 % 64) ::
        base64EncodeChunks rest

def base64Encode (bytes : List Nat) : String := String.mk (base64EncodeChunks bytes)

/-- Observable state of the Agent socket: `readyState = none` models
`this.socket === null`; `sent` records every message passed to `socket.send`. -/
structure AgentSocket where
  readyState : Option ReadyState
  sent : List OutMessage
  deriving DecidableEq, Repr

/-- Model of `Agent.appendInputAudio`: drops empty buffers and anything sent
while the socket is not open; otherwise sends exactly one `user_audio_chunk`
message holding the base64-encoded buffer. -/
def appendInputAudio (st : AgentSocket) (buffer : List Nat) : AgentSocket :=
  if buffer.length = 0 ∨ st.readyState ≠ some .wsOpen then st
  else { st with sent := st.sent ++ [.userAudioChunk (base64Encode buffer)] }

/-- C8: `appendInputAudio` on a zero-length buffer or a non-open socket
returns the state unchanged (nothing queued, nothing sent); otherwise it sends
exactly one `user_audio_chunk` message with the base64-encoded buffer and
leaves the socket state unchanged. -/
theorem appendInputAudio_spec (st : AgentSocket) (buffer : List Nat) :
    (buffer.length = 0 ∨ st.readyState ≠ some .wsOpen →
      appendInputAudio st buffer = st) ∧
    (buffer.length ≠ 0 → st.readyState = some .wsOpen →
      (appendInputAudio st buffer).sent
        = st.sent ++ [.userAudioChunk (base64Encode buffer)] ∧
      (appendInputAudio st buffer).readyState = st.readyState) := by
  unfold appendInputAudio
  by_cases h : buffer.length = 0 ∨ st.readyState ≠ some .wsOpen
  · rw [if_pos h]
    exact ⟨fun _ => rfl,
      fun h1 h2 => absurd h (by simp [h1, h2])⟩
  · rw [if_neg h]
    exact ⟨fun hg => absurd hg h, fun _ _ => ⟨rfl, rfl⟩⟩

/-- Witness for C8: an open socket sends one chunk for `[1, 2]`; a closed
socket drops it. -/
theorem appendInputAudio_spec_witness :
    (appendInputAudio ⟨some .wsOpen, []⟩ [1, 2]).sent
      = [] ++ [.userAudioChunk (base64Encode [1, 2])] ∧
    appendInputAudio ⟨some .wsClosed, []⟩ [1, 2] = ⟨some .wsClosed, []⟩ :=
  ⟨((appendInputAudio_spec ⟨some .wsOpen, []⟩ [1, 2]).2 (by decide) rfl).1,
    (appendInputAudio_spec ⟨some .wsClosed, []⟩ [1, 2]).1 (Or.inr (by decide))⟩

/-!
Model of tool dispatch: `ToolRegistry` (src/src/api/elevenlabs/tools/toolRegistry.ts)
and `Agent.handleClientToolCall` (src/src/api/elevenlabs/conversationalClient.ts).
A handler (`ToolHandler` in types/tools.ts) is abstracted by its observable
behaviour for the given invocation: the `respond` calls it makes, and whether
its promise resolves (`completes`) or it throws synchronously / rejects
(`throws`, covered by the dispatcher's single try/catch around `await handler`).
-/

/-- Observable behaviour of a registered tool handler for one invocation. -/
inductive HandlerSpec where
  | completes (calls : List (String × Bool))
  | throws (calls : List (String × Bool))
  deriving DecidableEq, Repr

/-- Association-list image of the registry's `Map`, insertion ordered. -/
structure ToolRegistry where
  handlers : List (String × HandlerSpec)
  deriving DecidableEq, Repr

/-- `Map.set` semantics: overwrite in place if the key exists, else append. -/
def registrySet : List (String × HandlerSpec) → String → HandlerSpec →
    List (String × HandlerSpec)
  | [], name, h => [(name, h)]
  | (k, v) :: rest, name, h =>
    if k = name then (name, h) :: rest else (k, v) :: registrySet rest name h

def ToolRegistry.register (r : ToolRegistry) (name : String) (h : HandlerSpec) :
    ToolRegistry :=
  ⟨registrySet r.handlers name h⟩

def ToolRegistry.get (r : ToolRegistry) (name : String) : Option HandlerSpec :=
  (r.handlers.find? (fun p => p.1 == name)).map Prod.snd

/-- Payload of a `client_tool_call` event; every field is optional in the
wire type (types/websocket.ts). -/
structure ToolCallPayload where
  tool_name : Option String
  tool_call_id : Option String
  parameters : Option (List (String × String))
  deriving DecidableEq, Repr

structure ClientToolCallEvent where
  client_tool_call : Option ToolCallPayload
  deriving DecidableEq, Repr

/-- JS falsiness of an optional string: absent (`undefined`) or empty. -/
def strFalsy : Option String → Bool
  | none => true
  | some s => s == ""

def unsupportedToolMessage (tool : String) : String :=
  "Error: Unsupported tool \x27" ++ tool ++ "\x27."

def genericToolErrorMessage : String :=
  "An error occurred while executing the tool. Please try again later."

inductive DispatchWarn where
  | missingToolCallDetails
  | missingToolNameOrId
  | unsupportedTool (tool : String)
  deriving DecidableEq, Repr

/-- Observable outcome of one dispatch: warnings logged and the sequence of
tool responses sent (each is `(tool_call_id, output, is_error)`). -/
structure DispatchResult where
  warns : List DispatchWarn
  responds : List (String × String × Bool)
  deriving DecidableEq, Repr

/-- Model of `Agent.handleClientToolCall`: guard on missing payload or falsy
`tool_name`/`tool_call_id`, look the tool up, and convert every handler
outcome into responses; a throwing/rejecting handler is caught and answered
with a generic error response. -/
def handleClientToolCall (registry : ToolRegistry) (event : ClientToolCallEvent) :
    DispatchResult :=
  match event.client_tool_call with
  | none => { warns := [.missingToolCallDetails], responds := [] }
  | some toolCall =>
    if strFalsy toolCall.tool_name || strFalsy toolCall.tool_call_id then
      { warns := [.missingToolNameOrId], responds := [] }
    else
      let tool := toolCall.tool_name.getD ""
      let toolCallId := toolCall.tool_call_id.getD ""
      match registry.get tool with
      | none =>
        { warns := [.unsupportedTool tool],
          responds := [(toolCallId, unsupportedToolMessage tool, true)] }
      | some (.completes calls) =>
        { warns := [], responds := calls.map (fun c => (toolCallId, c.1, c.2)) }
      | some (.throws calls) =>
        { warns := [],
          responds := calls.map (fun c => (toolCallId, c.1, c.2))
            ++ [(toolCallId, genericToolErrorMessage, true)] }

/-- C1: for a `client_tool_call` carrying a tool name and call id, dispatch
responds exactly once: an unregistered tool gets one error response naming it;
a handler that throws (or rejects) without having responded gets exactly one
generic error response; a handler that completes after responding once has its
own output and error flag forwarded unchanged.  The model is a total function,
so dispatch never throws. -/
theorem tool_dispatch_responds_once (registry : ToolRegistry)
    (event : ClientToolCallEvent) (toolCall : ToolCallPayload)
    (tool toolCallId : String)
    (hev : event.client_tool_call = some toolCall)
    (hname : toolCall.tool_name = some tool)
    (hid : toolCall.tool_call_id = some toolCallId)
    (hname0 : tool ≠ "") (hid0 : toolCallId ≠ "") :
    (registry.get tool = none →
      (handleClientToolCall registry event).responds
        = [(toolCallId, unsupportedToolMessage tool, true)]) ∧
    (registry.get tool = some (.throws []) →
      (handleClientToolCall registry event).responds
        = [(toolCallId, genericToolErrorMessage, true)]) ∧
    (∀ output isError,
      registry.get tool = some (.completes [(output, isError)]) →
      (handleClientToolCall registry event).responds
        = [(toolCallId, output, isError)]) := by
  refine ⟨fun hget => ?_, fun hget => ?_, fun output isError hget => ?_⟩ <;>
    simp [handleClientToolCall, hev, hname, hid, hget, strFalsy, hname0, hid0]

/-- Witness for C1: a one-entry registry exercised on an unknown tool, a
throwing tool, and a completing tool. -/
theorem tool_dispatch_responds_once_witness :
    (handleClientToolCall ⟨[("echo", .completes [("hi", false)])]⟩
        ⟨some ⟨some "mystery", some "id1", none⟩⟩).responds
      = [("id1", unsupportedToolMessage "mystery", true)] ∧
    (handleClientToolCall ⟨[("boom", .throws [])]⟩
        ⟨some ⟨some "boom", some "id3", none⟩⟩).responds
      = [("id3", genericToolErrorMessage, true)] ∧
    (handleClientToolCall ⟨[("echo", .completes [("hi", false)])]⟩
        ⟨some ⟨some "echo", some "id2", none⟩⟩).responds
      = [("id2", "hi", false)] :=
  ⟨(tool_dispatch_responds_once ⟨[("echo", .completes [("hi", false)])]⟩
      ⟨some ⟨some "mystery", some "id1", none⟩⟩ _ "mystery" "id1"
      rfl rfl rfl (by decide) (by decide)).1 (by decide),
   (tool_dispatch_responds_once ⟨[("boom", .throws [])]⟩
      ⟨some ⟨some "boom", some "id3", none⟩⟩ _ "boom" "id3"
      rfl rfl rfl (by decide) (by decide)).2.1 (by decide),
   (tool_dispatch_responds_once ⟨[("echo", .completes [("hi", false)])]⟩
      ⟨some ⟨some "echo", some "id2", none⟩⟩ _ "echo" "id2"
      rfl rfl rfl (by decide) (by decide)).2.2 "hi" false (by decide)⟩

/-- C10: an inbound `client_tool_call` event that lacks the
`client_tool_call` payload, or lacks `tool_name`, or lacks `tool_call_id`,
logs a warning and produces no response at all. -/
theorem tool_call_missing_fields_no_response (registry : ToolRegistry)
    (event : ClientToolCallEvent) :
    (event.client_tool_call = none →
      handleClientToolCall registry event
        = { warns := [.missingToolCallDetails], responds := [] }) ∧
    (∀ toolCall, event.client_tool_call = some toolCall →
      toolCall.tool_name = none ∨ toolCall.tool_call_id = none →
      handleClientToolCall registry event
        = { warns := [.missingToolNameOrId], responds := [] }) := by
  constructor
  · intro hev
    simp [handleClientToolCall, hev]
  · intro toolCall hev hmiss
    have hguard : (strFalsy toolCall.tool_name || strFalsy toolCall.tool_call_id) = true := by
      rcases hmiss with h | h <;> simp [strFalsy, h]
    simp [handleClientToolCall, hev, hguard]

/-- Witness for C10: an event with no payload, and a payload without a tool
name. -/
theorem tool_call_missing_fields_no_response_witness :
    handleClientToolCall ⟨[]⟩ ⟨none⟩
      = { warns := [.missingToolCallDetails], responds := [] } ∧
    handleClientToolCall ⟨[]⟩ ⟨some ⟨none, some "id9", none⟩⟩
      = { warns := [.missingToolNameOrId], responds := [] } :=
  ⟨(tool_call_missing_fields_no_response ⟨[]⟩ ⟨none⟩).1 rfl,
   (tool_call_missing_fields_no_response ⟨[]⟩ ⟨some ⟨none, some "id9", none⟩⟩).2
      ⟨none, some "id9", none⟩ rfl (Or.inl rfl)⟩

/-!
Model of `SpeechHandler.handleConnectionStateChange`
(src/src/api/discord/speech.ts) for the `Disconnected` branch.  The voice
connection exposes `rejoinAttempts`, a counter maintained by @discordjs/voice:
it is incremented by each `rejoin()` call and reset to 0 on a successful
reconnect; within a run of consecutive disconnects with no intervening
successful reconnect it therefore counts prior rejoin attempts.  `entersState`
waiting for `Connecting` within 5 s is modelled by the external outcome flag
`recovers`.
-/

/-- Externally visible actions the handler performs on a disconnect. -/
inductive SupervisorAction where
  | awaitConnecting (timeoutMs : Nat)
  | delayed (ms : Nat)
  | rejoined
  | destroyedConn
  deriving DecidableEq, Repr

/-- Disconnect reason as the handler discriminates it: a WebSocket close with
its close code, or any other reason. -/
inductive DisconnectInfo where
  | wsClose (closeCode : Nat)
  | otherReason
  deriving DecidableEq, Repr

/-- Predicate for the special-cased forceful-move/kick close: the reason is a
WebSocket close and the close code is 4014. -/
def is4014 : DisconnectInfo → Bool
  | .wsClose code => code == 4014
  | .otherReason => false

structure VoiceConn where
  rejoinAttempts : Nat
  destroyed : Bool
  deriving DecidableEq, Repr

/-- Model of the `Disconnected` branch of `handleConnectionStateChange`:
a 4014 WebSocket close waits (at most 5 s) for `Connecting` and either resumes
or destroys; any other disconnect rejoins after `attempt * 5000` ms while
fewer than 5 attempts were made, and destroys the connection otherwise. -/
def handleDisconnected (c : VoiceConn) (info : DisconnectInfo) (recovers : Bool) :
    VoiceConn × List SupervisorAction :=
  if is4014 info then
    if recovers then (c, [.awaitConnecting 5000])
    else ({ c with destroyed := true }, [.awaitConnecting 5000, .destroyedConn])
  else if c.rejoinAttempts < 5 then
    let attempt := c.rejoinAttempts + 1
    ({ c with rejoinAttempts := c.rejoinAttempts + 1 },
      [.delayed (attempt * 5000), .rejoined])
  else
    ({ c with destroyed := true }, [.destroyedConn])

/-- Iterated non-4014 disconnects with no intervening successful reconnect:
returns the final connection state and the per-disconnect action lists. -/
def runDisconnects (c : VoiceConn) : Nat → VoiceConn × List (List SupervisorAction)
  | 0 => (c, [])
  | k + 1 =>
    let step := handleDisconnected c .otherReason false
    let rest := runDisconnects step.1 k
    (rest.1, step.2 :: rest.2)

lemma handleDisconnected_rejoin (a : Nat) (d : Bool) (ha : a < 5) :
    handleDisconnected ⟨a, d⟩ .otherReason false
      = (⟨a + 1, d⟩, [.delayed ((a + 1) * 5000), .rejoined]) := by
  simp [handleDisconnected, is4014, ha]

lemma handleDisconnected_giveUp (a : Nat) (d : Bool) (ha : ¬ a < 5) :
    handleDisconnected ⟨a, d⟩ .otherReason false = (⟨a, true⟩, [.destroyedConn]) := by
  simp [handleDisconnected, is4014, ha]

lemma runDisconnects_trace (k : Nat) :
    ∀ a (d : Bool) i, i < k →
      ((runDisconnects ⟨a, d⟩ k).2.getD i [])
        = if a + i < 5 then [.delayed ((a + i + 1) * 5000), .rejoined]
          else [.destroyedConn] := by
  induction k with
  | zero => intro a d i hi; omega
  | succ k ih =>
    intro a d i hi
    by_cases ha : a < 5
    · match i with
      | 0 =>
        simp only [runDisconnects, handleDisconnected_rejoin a d ha, List.getD_cons_zero]
        rw [if_pos (by omega)]
      | i + 1 =>
        simp only [runDisconnects, handleDisconnected_rejoin a d ha, List.getD_cons_succ]
        rw [ih (a + 1) d i (by omega), show a + 1 + i = a + (i + 1) by omega]
    · match i with
      | 0 =>
        simp only [runDisconnects, handleDisconnected_giveUp a d ha, List.getD_cons_zero]
        rw [if_neg (by omega)]
      | i + 1 =>
        simp only [runDisconnects, handleDisconnected_giveUp a d ha, List.getD_cons_succ]
        rw [ih a true i (by omega), if_neg (by omega), if_neg (by omega)]

lemma runDisconnects_destroyed (k : Nat) :
    ∀ a (d : Bool), (runDisconnects ⟨a, d⟩ k).1.destroyed = true
      ↔ (d = true ∨ (1 ≤ k ∧ 6 ≤ a + k)) := by
  induction k with
  | zero =>
    intro a d
    simp only [runDisconnects]
    constructor
    · exact fun h => Or.inl h
    · rintro (h | ⟨h1, _⟩)
      · exact h
      · omega
  | succ k ih =>
    intro a d
    by_cases ha : a < 5
    · simp only [runDisconnects, handleDisconnected_rejoin a d ha]
      rw [ih (a + 1) d]
      cases d
      · simp only [Bool.false_eq_true, false_or]
        omega
      · simp
    · simp only [runDisconnects, handleDisconnected_giveUp a d ha]
      rw [ih a true]
      simp only [true_or, true_iff]
      right
      omega

/-- C2: in a run of `k` consecutive non-4014 disconnects starting from a
fresh connection (no prior rejoin attempts, no intervening successful
reconnect), the `i`-th disconnect for `i < 5` performs exactly one rejoin
preceded by a delay of `(i + 1) * 5` seconds (5 s, 10 s, …, 25 s), every
disconnect after the 5th rejoin attempt only destroys the connection (no
further rejoin), and once a 6th disconnect has occurred the connection is
destroyed. -/
theorem reconnect_backoff_bound (k i : Nat) (hik : i < k) :
    ((runDisconnects ⟨0, false⟩ k).2.getD i []
        = if i < 5 then [.delayed ((i + 1) * 5000), .rejoined]
          else [.destroyedConn]) ∧
    (5 ≤ i → SupervisorAction.rejoined ∉ (runDisconnects ⟨0, false⟩ k).2.getD i []) ∧
    (6 ≤ k → (runDisconnects ⟨0, false⟩ k).1.destroyed = true) := by
  have htr := runDisconnects_trace k 0 false i hik
  simp only [Nat.zero_add] at htr
  refine ⟨htr, fun h5 => ?_, fun h6 => ?_⟩
  · rw [htr, if_neg (by omega)]
    simp
  · rw [runDisconnects_destroyed k 0 false]
    exact Or.inr ⟨by omega, by omega⟩

/-- Witness for C2 at `k = 7`: the third disconnect delays 15 s then rejoins,
and the connection ends destroyed. -/
theorem reconnect_backoff_bound_witness :
    ((runDisconnects ⟨0, false⟩ 7).2.getD 2 []
        = if 2 < 5 then [.delayed ((2 + 1) * 5000), .rejoined]
          else [.destroyedConn]) ∧
    (5 ≤ 2 → SupervisorAction.rejoined ∉ (runDisconnects ⟨0, false⟩ 7).2.getD 2 []) ∧
    (6 ≤ 7 → (runDisconnects ⟨0, false⟩ 7).1.destroyed = true) :=
  reconnect_backoff_bound 7 2 (by decide)

/-- C6: a disconnect whose reason is a WebSocket close with code 4014 makes
exactly one recovery attempt — a single bounded 5-second wait for the
`Connecting` state — resuming unchanged on success and destroying the
connection on timeout; no rejoin and no backoff delay happen on this path. -/
theorem close4014_single_recovery (c : VoiceConn) (recovers : Bool) :
    handleDisconnected c (.wsClose 4014) recovers
      = (if recovers then c else { c with destroyed := true },
         if recovers then [SupervisorAction.awaitConnecting 5000]
         else [SupervisorAction.awaitConnecting 5000, SupervisorAction.destroyedConn]) ∧
    SupervisorAction.rejoined ∉ (handleDisconnected c (.wsClose 4014) recovers).2 ∧
    ∀ ms, SupervisorAction.delayed ms ∉ (handleDisconnected c (.wsClose 4014) recovers).2 := by
  cases recovers <;> simp [handleDisconnected, is4014]

/-!
Model of the per-speaker stream lifecycle of `SpeechHandler`
(src/src/api/discord/speech.ts, the variant with
`registerUserStream`/`removeUserStream`): the `speakingUsers` map, the
`receiver.subscribe` calls, and the once-only `end`/`close`/`error` disposal
hooks.  Each `AudioReceiveStream` object is identified by a numeric id drawn
from `nextStreamId`; `destroyCount` counts `stream.destroy()` calls and the
three `Attached` flags model the once-listeners (`removeAllListeners` clears
all three).  The long-running `for await` consumption loop is not part of this
synchronous state; one stream per speaker means frames are forwarded once. -/

structure StreamRec where
  id : Nat
  endAttached : Bool
  closeAttached : Bool
  errorAttached : Bool
  destroyCount : Nat
  deriving DecidableEq, Repr

structure SpeechState where
  speakingUsers : List (String × Nat)
  streams : List StreamRec
  subscribeLog : List String
  nextStreamId : Nat
  deriving DecidableEq, Repr

/-- `Map.get` on `speakingUsers`. -/
def lookupUser (st : SpeechState) (userId : String) : Option Nat :=
  (st.speakingUsers.find? (fun p => p.1 == userId)).map Prod.snd

/-- `Map.set` semantics: overwrite in place if the key exists, else append. -/
def userMapSet : List (String × Nat) → String → Nat → List (String × Nat)
  | [], u, sid => [(u, sid)]
  | p :: rest, u, sid =>
    if p.1 == u then (u, sid) :: rest else p :: userMapSet rest u sid

/-- `Map.delete` on the unique-keyed `speakingUsers` map (removes every entry
for the key, which on a map with unique keys is the single entry). -/
def eraseUser : List (String × Nat) → String → List (String × Nat)
  | [], _ => []
  | p :: rest, u => if p.1 == u then eraseUser rest u else p :: eraseUser rest u

def findStream (st : SpeechState) (sid : Nat) : Option StreamRec :=
  st.streams.find? (fun r => r.id == sid)

/-- Model of `removeUserStream`: a missing map entry returns immediately;
otherwise the entry is deleted, `removeAllListeners()` clears every hook of
that stream, and `destroy()` is invoked (counted) on it. -/
def removeUserStream (st : SpeechState) (userId : String) : SpeechState :=
  match lookupUser st userId with
  | none => st
  | some sid =>
    { st with
      speakingUsers := eraseUser st.speakingUsers userId,
      streams := st.streams.map (fun r =>
        if r.id == sid then
          { r with endAttached := false, closeAttached := false,
                   errorAttached := false, destroyCount := r.destroyCount + 1 }
        else r) }

/-- Model of `registerUserStream`: track the stream in the map and attach the
three once-only lifecycle handlers. -/
def registerUserStream (st : SpeechState) (userId : String) (sid : Nat) : SpeechState :=
  { st with
    speakingUsers := userMapSet st.speakingUsers userId sid,
    streams := st.streams ++ [⟨sid, true, true, true, 0⟩] }

/-- Model of the synchronous effect of `createUserAudioStream` up to
registration: `receiver.subscribe` is called (logged); if it returns a stream
the stream is registered, and if it throws no entry is registered (the error
is only logged). -/
def createUserAudioStream (st : SpeechState) (userId : String) (subscribeOk : Bool) :
    SpeechState :=
  if subscribeOk then
    registerUserStream
      { st with subscribeLog := st.subscribeLog ++ [userId],
                nextStreamId := st.nextStreamId + 1 }
      userId st.nextStreamId
  else
    { st with subscribeLog := st.subscribeLog ++ [userId] }

/-- Model of `handleUserSpeaking`: an already-tracked speaker returns at once;
otherwise an audio stream is created for the speaker. -/
def handleUserSpeaking (st : SpeechState) (userId : String) (subscribeOk : Bool) :
    SpeechState :=
  if (lookupUser st userId).isSome then st
  else createUserAudioStream st userId subscribeOk

/-- Stream-end events a tracked stream can emit. -/
inductive StreamEvent where
  | streamEnd
  | streamClose
  | streamError
  deriving DecidableEq, Repr

def listensFor (r : StreamRec) : StreamEvent → Bool
  | .streamEnd => r.endAttached
  | .streamClose => r.closeAttached
  | .streamError => r.errorAttached

def detachOnce (r : StreamRec) : StreamEvent → StreamRec
  | .streamEnd => { r with endAttached := false }
  | .streamClose => { r with closeAttached := false }
  | .streamError => { r with errorAttached := false }

/-- Emission of a stream event on the stream object `sid` whose registered
closures captured `userId`: a `once` listener detaches itself and runs
`removeUserStream userId`; with no listener attached nothing happens. -/
def fireStreamEvent (st : SpeechState) (userId : String) (sid : Nat)
    (e : StreamEvent) : SpeechState :=
  match findStream st sid with
  | none => st
  | some r =>
    if listensFor r e then
      removeUserStream
        { st with streams := st.streams.map (fun q =>
            if q.id == sid then detachOnce q e else q) }
        userId
    else st

def runStreamEvents (st : SpeechState) (userId : String) (sid : Nat)
    (events : List StreamEvent) : SpeechState :=
  events.foldl (fun s e => fireStreamEvent s userId sid e) st

/-- C7: a second "speaking started" notification for an already-tracked
speaker is a no-op — the state is unchanged, so no second InboundStream is
created, no second subscription is made, and with a single stream per speaker
frames are not forwarded twice. -/
theorem duplicate_speaker_start_noop (st : SpeechState) (userId : String)
    (subscribeOk : Bool) (h : (lookupUser st userId).isSome = true) :
    handleUserSpeaking st userId subscribeOk = st ∧
    (handleUserSpeaking st userId subscribeOk).streams = st.streams ∧
    (handleUserSpeaking st userId subscribeOk).subscribeLog = st.subscribeLog := by
  have heq : handleUserSpeaking st userId subscribeOk = st := by
    simp [handleUserSpeaking, h]
  exact ⟨heq, by rw [heq], by rw [heq]⟩

/-- Witness for C7: a state tracking speaker `alice` is untouched by a second
speaking notification for `alice`. -/
theorem duplicate_speaker_start_noop_witness :
    handleUserSpeaking ⟨[("alice", 0)], [⟨0, true, true, true, 0⟩], ["alice"], 1⟩
        "alice" true
      = ⟨[("alice", 0)], [⟨0, true, true, true, 0⟩], ["alice"], 1⟩ :=
  (duplicate_speaker_start_noop ⟨[("alice", 0)], [⟨0, true, true, true, 0⟩], ["alice"], 1⟩
    "alice" true (by decide)).1

lemma lookupUser_erase (m : List (String × Nat)) (u : String) :
    (eraseUser m u).find? (fun p => p.1 == u) = none := by
  induction m with
  | nil => rfl
  | cons p rest ih =>
    by_cases hp : p.1 == u
    · simpa [eraseUser, hp] using ih
    · simpa [eraseUser, hp, List.find?] using ih

/-- `find?` by id commutes with an id-preserving in-place update. -/
lemma find?_map_id_update (l : List StreamRec) (sid : Nat) (f : StreamRec → StreamRec)
    (hf : ∀ r, (f r).id = r.id) :
    (l.map (fun q => if q.id == sid then f q else q)).find? (fun r => r.id == sid)
      = (l.find? (fun r => r.id == sid)).map f := by
  induction l with
  | nil => rfl
  | cons r rest ih =>
    simp only [List.map_cons]
    by_cases hr : (r.id == sid) = true
    · have hr2 : ((f r).id == sid) = true := by rw [hf r]; exact hr
      rw [if_pos hr]
      simp only [List.find?, hr2, hr]
      rfl
    · have hrf : (r.id == sid) = false := by simpa using hr
      rw [if_neg hr]
      simp only [List.find?, hrf, ih]

lemma fires_noop (userId : String) (sid : Nat) (events : List StreamEvent) :
    ∀ st q, findStream st sid = some q →
      q.endAttached = false → q.closeAttached = false → q.errorAttached = false →
      runStreamEvents st userId sid events = st := by
  induction events with
  | nil => intro st q _ _ _ _; rfl
  | cons e rest ih =>
    intro st q hq h1 h2 h3
    have hlisten : listensFor q e = false := by
      cases e <;> simpa [listensFor]
    have hfire : fireStreamEvent st userId sid e = st := by
      simp [fireStreamEvent, hq, hlisten]
    unfold runStreamEvents
    rw [List.foldl_cons, hfire]
    exact ih st q hq h1 h2 h3

/-- C3: for a tracked stream with its three lifecycle hooks attached, any
nonempty sequence of `end`/`close`/`error` events removes the speaker from the
tracking map and disposes the underlying receive handle exactly once
(`destroyCount = 1`), with no session teardown involved. -/
theorem stream_teardown_once (st : SpeechState) (userId : String) (sid : Nat)
    (r : StreamRec)
    (hmap : lookupUser st userId = some sid)
    (hstream : findStream st sid = some r)
    (hend : r.endAttached = true) (hclose : r.closeAttached = true)
    (herror : r.errorAttached = true) (hcount : r.destroyCount = 0)
    (events : List StreamEvent) (hne : events ≠ []) :
    lookupUser (runStreamEvents st userId sid events) userId = none ∧
    ∃ q, findStream (runStreamEvents st userId sid events) sid = some q ∧
      q.destroyCount = 1 ∧ q.endAttached = false ∧ q.closeAttached = false ∧
      q.errorAttached = false := by
  obtain ⟨e, rest, rfl⟩ : ∃ e rest, events = e :: rest := by
    cases events with
    | nil => exact absurd rfl hne
    | cons e rest => exact ⟨e, rest, rfl⟩
  have hlisten : listensFor r e = true := by
    cases e <;> simpa [listensFor]
  have hdetach_id : ∀ q, (detachOnce q e).id = q.id := by
    intro q; cases e <;> rfl
  set stMid : SpeechState :=
    { st with streams := st.streams.map (fun q =>
        if q.id == sid then detachOnce q e else q) } with hstMid
  have hlookMid : lookupUser stMid userId = some sid := hmap
  set bump : StreamRec → StreamRec := fun q =>
    { q with endAttached := false, closeAttached := false,
             errorAttached := false, destroyCount := q.destroyCount + 1 } with hbump
  have hbump_id : ∀ q, (bump q).id = q.id := fun _ => rfl
  set st1 : SpeechState :=
    { stMid with
      speakingUsers := eraseUser stMid.speakingUsers userId,
      streams := stMid.streams.map (fun q => if q.id == sid then bump q else q) }
    with hst1
  have hremove : removeUserStream stMid userId = st1 := by
    unfold removeUserStream
    rw [hlookMid]
  have hfire : fireStreamEvent st userId sid e = st1 := by
    simp only [fireStreamEvent, hstream, hlisten, if_true]
    exact hremove
  have hlook1 : lookupUser st1 userId = none := by
    simp only [hst1, lookupUser]
    rw [lookupUser_erase]
    rfl
  have hfind1 : findStream st1 sid = some (bump (detachOnce r e)) := by
    simp only [hst1, findStream]
    rw [find?_map_id_update _ _ _ hbump_id]
    have : stMid.streams.find? (fun q => q.id == sid) = some (detachOnce r e) := by
      simp only [hstMid]
      rw [find?_map_id_update _ _ _ hdetach_id]
      rw [show st.streams.find? (fun q => q.id == sid) = some r from hstream]
      rfl
    rw [this]
    rfl
  have hq_flags : (bump (detachOnce r e)).endAttached = false ∧
      (bump (detachOnce r e)).closeAttached = false ∧
      (bump (detachOnce r e)).errorAttached = false := ⟨rfl, rfl, rfl⟩
  have hq_count : (bump (detachOnce r e)).destroyCount = 1 := by
    have : (detachOnce r e).destroyCount = r.destroyCount := by cases e <;> rfl
    simp only [hbump, this, hcount]
  have hrun : runStreamEvents st userId sid (e :: rest) = st1 := by
    unfold runStreamEvents
    rw [List.foldl_cons, hfire]
    exact fires_noop userId sid rest st1 (bump (detachOnce r e)) hfind1
      hq_flags.1 hq_flags.2.1 hq_flags.2.2
  rw [hrun]
  exact ⟨hlook1, bump (detachOnce r e), hfind1, hq_count,
    hq_flags.1, hq_flags.2.1, hq_flags.2.2⟩

/-- Witness for C3: a single-speaker session where the registered stream gets
an `error` followed by a stale `close`: the speaker is untracked and the
handle destroyed exactly once. -/
theorem stream_teardown_once_witness :
    lookupUser (runStreamEvents
        ⟨[("bob", 0)], [⟨0, true, true, true, 0⟩], ["bob"], 1⟩ "bob" 0
        [.streamError, .streamClose]) "bob" = none ∧
    ∃ q, findStream (runStreamEvents
        ⟨[("bob", 0)], [⟨0, true, true, true, 0⟩], ["bob"], 1⟩ "bob" 0
        [.streamError, .streamClose]) 0 = some q ∧
      q.destroyCount = 1 ∧ q.endAttached = false ∧ q.closeAttached = false ∧
      q.errorAttached = false :=
  stream_teardown_once ⟨[("bob", 0)], [⟨0, true, true, true, 0⟩], ["bob"], 1⟩
    "bob" 0 ⟨0, true, true, true, 0⟩ (by decide) (by decide) rfl rfl rfl rfl
    [.streamError, .streamClose] (by decide)

/-!
Model of the Agent playback pipeline (src/src/api/elevenlabs/conversationalClient.ts):
`pcmStream` (a `PassThrough` identified by a numeric id plus its `destroyed`
flag), `getOrCreatePcmStream`, `handleAudio`, `handleInterruption`, and the
player-error handler installed by `bindAudioPlayerEvents`.  The external
effect of `audioPlayer.stop()` — destroying the stream backing the resource
currently attached to the player — is part of the `interruption` step; a
player `error` event runs `disposePcmStream` (destroy + null out). -/

structure AgentPlayback where
  nextId : Nat
  pcm : Option (Nat × Bool)
  attached : Option Nat
  writes : List (Nat × List (Option Nat))
  deriving DecidableEq, Repr

/-- Model of `getOrCreatePcmStream`: reuse the stream while it exists and is
not destroyed; otherwise construct a fresh `PassThrough` and report it new. -/
def getOrCreatePcmStream (st : AgentPlayback) : AgentPlayback × Nat × Bool :=
  match st.pcm with
  | some (id, false) => (st, id, false)
  | _ => ({ st with pcm := some (st.nextId, false), nextId := st.nextId + 1 },
          st.nextId, true)

/-- Model of `handleAudio`: decode the chunk (a thrown decode error is caught
and dropped), skip empty output, write into the (possibly fresh) pcm stream,
and attach a new resource to the player only when the stream is new. -/
def handleAudio (st : AgentPlayback) (mono : List Nat) : AgentPlayback :=
  match base64MonoPcmToStereo mono with
  | .error _ => st
  | .ok stereo =>
    if stereo.length = 0 then st
    else
      match getOrCreatePcmStream st with
      | (st1, id, isNew) =>
        let st2 := { st1 with writes := st1.writes ++ [(id, stereo)] }
        if isNew then { st2 with attached := some id } else st2

/-- Model of `handleInterruption`: `audioPlayer.stop()` destroys the stream
backing the attached resource; the `pcmStream` field itself is not nulled. -/
def handleInterruption (st : AgentPlayback) : AgentPlayback :=
  match st.pcm with
  | some (id, _) =>
    if st.attached = some id then { st with pcm := some (id, true) } else st
  | none => st

/-- Model of `disposePcmStream` (run by the player error handler): destroy
the stream and null the field. -/
def disposePcmStream (st : AgentPlayback) : AgentPlayback := { st with pcm := none }

inductive AgentEvent where
  | audio (mono : List Nat)
  | interruption
  | playerError
  deriving DecidableEq, Repr

def stepEvent (st : AgentPlayback) : AgentEvent → AgentPlayback
  | .audio mono => handleAudio st mono
  | .interruption => handleInterruption st
  | .playerError => disposePcmStream st

/-- State right after `connect()`: no pcm stream, nothing attached. -/
def initPlayback : AgentPlayback := ⟨0, none, none, []⟩

def runPlayback (events : List AgentEvent) : AgentPlayback :=
  events.foldl stepEvent initPlayback

/-- Invariant of every reachable state: a live or destroyed pcm stream is the
one attached to the player, and its id is below the fresh-id counter. -/
def PlaybackInv (st : AgentPlayback) : Prop :=
  ∀ id d, st.pcm = some (id, d) → st.attached = some id ∧ id < st.nextId

lemma handleAudio_error (st : AgentPlayback) (mono : List Nat) (e : JsError)
    (hdec : base64MonoPcmToStereo mono = .error e) : handleAudio st mono = st := by
  unfold handleAudio
  rw [hdec]

lemma handleAudio_empty (st : AgentPlayback) (mono : List Nat)
    (hdec : base64MonoPcmToStereo mono = .ok []) : handleAudio st mono = st := by
  unfold handleAudio
  rw [hdec]
  rfl

/-- Behaviour of `handleAudio` on a nonempty decoded chunk, by whether a live
pcm stream exists. -/
lemma handleAudio_cases (st : AgentPlayback) (mono : List Nat)
    (stereo : List (Option Nat))
    (hdec : base64MonoPcmToStereo mono = .ok stereo) (hne : stereo.length ≠ 0) :
    (∀ id, st.pcm = some (id, false) →
      handleAudio st mono = { st with writes := st.writes ++ [(id, stereo)] }) ∧
    ((∀ id, st.pcm ≠ some (id, false)) →
      handleAudio st mono =
        { nextId := st.nextId + 1, pcm := some (st.nextId, false),
          attached := some st.nextId,
          writes := st.writes ++ [(st.nextId, stereo)] }) := by
  constructor
  · intro id hlive
    have hget : getOrCreatePcmStream st = (st, id, false) := by
      unfold getOrCreatePcmStream
      rw [hlive]
    simp [handleAudio, hdec, hne, hget]
  · intro hdead
    have hget : getOrCreatePcmStream st
        = ({ st with pcm := some (st.nextId, false), nextId := st.nextId + 1 },
           st.nextId, true) := by
      unfold getOrCreatePcmStream
      match hp : st.pcm with
      | none => rfl
      | some (id, true) => rfl
      | some (id, false) => exact absurd hp (hdead id)
    simp [handleAudio, hdec, hne, hget]

lemma playbackInv_init : PlaybackInv initPlayback := by
  intro id d h
  exact Option.noConfusion h

lemma playbackInv_step (st : AgentPlayback) (hinv : PlaybackInv st) (e : AgentEvent) :
    PlaybackInv (stepEvent st e) := by
  cases e with
  | audio mono =>
    show PlaybackInv (handleAudio st mono)
    match hdec : base64MonoPcmToStereo mono with
    | .error e => rw [handleAudio_error st mono e hdec]; exact hinv
    | .ok stereo =>
      by_cases hlen : stereo.length = 0
      · have h0 : stereo = [] := List.length_eq_zero.mp hlen
        rw [h0] at hdec
        rw [handleAudio_empty st mono hdec]
        exact hinv
      · obtain ⟨hA, hB⟩ := handleAudio_cases st mono stereo hdec hlen
        match hp : st.pcm with
        | some (id, false) =>
          rw [hA id hp]
          intro j dj hj
          exact hinv j dj hj
        | some (id, true) =>
          rw [hB (by rw [hp]; intro j hcon; simp at hcon)]
          intro j dj hj
          simp only [Option.some.injEq, Prod.mk.injEq] at hj
          obtain ⟨h1, h2⟩ := hj
          exact ⟨by rw [← h1], by show j < st.nextId + 1; omega⟩
        | none =>
          rw [hB (by rw [hp]; intro j hcon; simp at hcon)]
          intro j dj hj
          simp only [Option.some.injEq, Prod.mk.injEq] at hj
          obtain ⟨h1, h2⟩ := hj
          exact ⟨by rw [← h1], by show j < st.nextId + 1; omega⟩
  | interruption =>
    show PlaybackInv (handleInterruption st)
    unfold handleInterruption
    match hp : st.pcm with
    | none => exact hinv
    | some (id, d) =>
      show PlaybackInv
        (if st.attached = some id then { st with pcm := some (id, true) } else st)
      by_cases hat : st.attached = some id
      · rw [if_pos hat]
        intro j dj hj
        simp only [Option.some.injEq, Prod.mk.injEq] at hj
        obtain ⟨h1, h2⟩ := hj
        obtain ⟨-, hlt⟩ := hinv id d hp
        exact ⟨by rw [← h1]; exact hat, by show j < st.nextId; omega⟩
      · rw [if_neg hat]
        exact hinv
  | playerError =>
    intro j dj hj
    exact Option.noConfusion hj

lemma foldl_playbackInv (events : List AgentEvent) :
    ∀ st, PlaybackInv st → PlaybackInv (events.foldl stepEvent st) := by
  induction events with
  | nil => intro st h; exact h
  | cons e rest ih =>
    intro st h
    rw [List.foldl_cons]
    exact ih _ (playbackInv_step st h e)

lemma runPlayback_inv (events : List AgentEvent) : PlaybackInv (runPlayback events) :=
  foldl_playbackInv events initPlayback playbackInv_init

/-- C4: in any reachable state, after an `audio` event with nonempty decoded
output there is a live buffer instance `id`; a second `audio` event with no
intervening `interruption` or player error writes into that same instance and
creates no new buffer (`pcm` and `nextId` unchanged); and after an
`interruption` the next `audio` event creates a fresh instance `id2 ≠ id`.
The state holds at most one buffer (`pcm` is a single optional field), and a
destroyed buffer is replaced only on the next audio event. -/
theorem playback_buffer_reuse (pre : List AgentEvent) (m1 m2 : List Nat)
    (s1 s2 : List (Option Nat))
    (hd1 : base64MonoPcmToStereo m1 = .ok s1) (hne1 : s1.length ≠ 0)
    (hd2 : base64MonoPcmToStereo m2 = .ok s2) (hne2 : s2.length ≠ 0) :
    ∃ id,
      (stepEvent (runPlayback pre) (.audio m1)).pcm = some (id, false) ∧
      (stepEvent (stepEvent (runPlayback pre) (.audio m1)) (.audio m2)).pcm
        = some (id, false) ∧
      (stepEvent (stepEvent (runPlayback pre) (.audio m1)) (.audio m2)).nextId
        = (stepEvent (runPlayback pre) (.audio m1)).nextId ∧
      (stepEvent (stepEvent (runPlayback pre) (.audio m1)) (.audio m2)).writes
        = (stepEvent (runPlayback pre) (.audio m1)).writes ++ [(id, s2)] ∧
      ∃ id2, id2 ≠ id ∧
        (stepEvent (stepEvent (stepEvent (runPlayback pre) (.audio m1)) .interruption)
            (.audio m2)).pcm = some (id2, false) ∧
        (stepEvent (stepEvent (stepEvent (runPlayback pre) (.audio m1)) .interruption)
            (.audio m2)).writes
          = (stepEvent (stepEvent (runPlayback pre) (.audio m1)) .interruption).writes
            ++ [(id2, s2)] := by
  have hinv0 : PlaybackInv (runPlayback pre) := runPlayback_inv pre
  set st0 := runPlayback pre with hst0
  -- after the first audio event the pcm stream is live, attached, and fresh-bounded
  have key : ∃ id, (stepEvent st0 (.audio m1)).pcm = some (id, false) ∧
      (stepEvent st0 (.audio m1)).attached = some id ∧
      id < (stepEvent st0 (.audio m1)).nextId := by
    obtain ⟨hA, hB⟩ := handleAudio_cases st0 m1 s1 hd1 hne1
    match hp : st0.pcm with
    | some (id, false) =>
      obtain ⟨hatt, hlt⟩ := hinv0 id false hp
      refine ⟨id, ?_, ?_, ?_⟩ <;> rw [show stepEvent st0 (.audio m1) = handleAudio st0 m1 from rfl, hA id hp]
      · exact hp
      · exact hatt
      · exact hlt
    | some (id, true) =>
      refine ⟨st0.nextId, ?_, ?_, ?_⟩ <;>
        rw [show stepEvent st0 (.audio m1) = handleAudio st0 m1 from rfl,
          hB (by rw [hp]; intro j hcon; simp at hcon)]
      show st0.nextId < st0.nextId + 1
      omega
    | none =>
      refine ⟨st0.nextId, ?_, ?_, ?_⟩ <;>
        rw [show stepEvent st0 (.audio m1) = handleAudio st0 m1 from rfl,
          hB (by rw [hp]; intro j hcon; simp at hcon)]
      show st0.nextId < st0.nextId + 1
      omega
  obtain ⟨id, hlive1, hatt1, hlt1⟩ := key
  set st1 := stepEvent st0 (.audio m1) with hst1
  refine ⟨id, hlive1, ?_, ?_, ?_, ?_⟩
  -- consecutive audio: reuse the same instance
  · rw [show stepEvent st1 (.audio m2) = handleAudio st1 m2 from rfl,
      (handleAudio_cases st1 m2 s2 hd2 hne2).1 id hlive1]
    exact hlive1
  · rw [show stepEvent st1 (.audio m2) = handleAudio st1 m2 from rfl,
      (handleAudio_cases st1 m2 s2 hd2 hne2).1 id hlive1]
  · rw [show stepEvent st1 (.audio m2) = handleAudio st1 m2 from rfl,
      (handleAudio_cases st1 m2 s2 hd2 hne2).1 id hlive1]
  -- interruption destroys the attached stream; the next audio starts fresh
  · have hint : stepEvent st1 .interruption = { st1 with pcm := some (id, true) } := by
      show handleInterruption st1 = _
      unfold handleInterruption
      rw [hlive1]
      show (if st1.attached = some id then { st1 with pcm := some (id, true) } else st1)
        = { st1 with pcm := some (id, true) }
      rw [if_pos hatt1]
    refine ⟨(stepEvent st1 .interruption).nextId, ?_, ?_, ?_⟩
    · rw [hint]
      show st1.nextId ≠ id
      omega
    · rw [show stepEvent (stepEvent st1 .interruption) (.audio m2)
            = handleAudio (stepEvent st1 .interruption) m2 from rfl,
        (handleAudio_cases (stepEvent st1 .interruption) m2 s2 hd2 hne2).2
          (by rw [hint]; intro j hcon; simp at hcon)]
    · rw [show stepEvent (stepEvent st1 .interruption) (.audio m2)
            = handleAudio (stepEvent st1 .interruption) m2 from rfl,
        (handleAudio_cases (stepEvent st1 .interruption) m2 s2 hd2 hne2).2
          (by rw [hint]; intro j hcon; simp at hcon)]

/-- Witness for C4 at `pre = []` with the one-sample chunks `[1, 0]` and
`[2, 0]`. -/
theorem playback_buffer_reuse_witness :
    ∃ id,
      (stepEvent (runPlayback []) (.audio [1, 0])).pcm = some (id, false) ∧
      (stepEvent (stepEvent (runPlayback []) (.audio [1, 0])) (.audio [2, 0])).pcm
        = some (id, false) ∧
      (stepEvent (stepEvent (runPlayback []) (.audio [1, 0])) (.audio [2, 0])).nextId
        = (stepEvent (runPlayback []) (.audio [1, 0])).nextId ∧
      (stepEvent (stepEvent (runPlayback []) (.audio [1, 0])) (.audio [2, 0])).writes
        = (stepEvent (runPlayback []) (.audio [1, 0])).writes
          ++ [(id, [some 2, some 0, some 2, some 0])] ∧
      ∃ id2, id2 ≠ id ∧
        (stepEvent (stepEvent (stepEvent (runPlayback []) (.audio [1, 0])) .interruption)
            (.audio [2, 0])).pcm = some (id2, false) ∧
        (stepEvent (stepEvent (stepEvent (runPlayback []) (.audio [1, 0])) .interruption)
            (.audio [2, 0])).writes
          = (stepEvent (stepEvent (runPlayback []) (.audio [1, 0])) .interruption).writes
            ++ [(id2, [some 2, some 0, some 2, some 0])] :=
  playback_buffer_reuse [] [1, 0] [2, 0]
    [some 1, some 0, some 1, some 0] [some 2, some 0, some 2, some 0]
    (by simp [base64MonoPcmToStereo, upmixLoop, jsReadInt16LE, jsWriteInt16LE,
      readInt16, int16ToUint16, List.replicate])
    (by decide)
    (by simp [base64MonoPcmToStereo, upmixLoop, jsReadInt16LE, jsWriteInt16LE,
      readInt16, int16ToUint16, List.replicate])
    (by decide)

end ElevenDiscord
